import Mathlib

/-!
Verification of the vector-database core of the smart-reader repository.

The Python sources under `services/vector-db/` are embedded shallowly:
  * floats become exact rationals (`ℚ`);
  * the in-process state of `VectorService` (the chromadb client's
    collections, the handle cache `self.collections`, and a fresh-id
    supply standing for `uuid.uuid4()`) becomes an explicit state record
    passed through each operation;
  * code that raises becomes `Except VErr`;
  * the external chromadb index (`collection.add` / `collection.query` /
    `collection.get` / `collection.delete`) is modelled by brute-force
    list operations following chromadb's documented contract: `add`
    rejects a vector whose length differs from the collection's
    established dimension (the dimension is fixed by the first insert),
    and `query` returns the `n_results` nearest stored vectors by
    ascending distance, ties resolved in insertion order;
  * the MongoDB collection behind `DocumentEmbedding` is modelled as a
    list of records in insertion order.
-/

/-! ## A stable insertion sort, used to model ordered retrieval -/

/-- Insert `x` into `l`, placing it before the first element `y` with
`le x y`; on ties (`le` both ways) the inserted element goes first, which
together with `sortLe` yields a stable sort. -/
def insertLe {α : Type} (le : α → α → Bool) (x : α) : List α → List α
  | [] => [x]
  | y :: ys => if le x y then x :: y :: ys else y :: insertLe le x ys

/-- Insertion sort by the Bool-valued relation `le`. -/
def sortLe {α : Type} (le : α → α → Bool) : List α → List α
  | [] => []
  | x :: xs => insertLe le x (sortLe le xs)

theorem perm_insertLe {α : Type} (le : α → α → Bool) (x : α) (l : List α) :
    (insertLe le x l).Perm (x :: l) := by
  induction l with
  | nil => simp [insertLe]
  | cons y ys ih =>
    by_cases h : le x y
    · simp [insertLe, h]
    · simp only [insertLe, h, if_neg]
      exact ((ih.cons y).trans (List.Perm.swap x y ys)).symm.symm

theorem perm_sortLe {α : Type} (le : α → α → Bool) (l : List α) :
    (sortLe le l).Perm l := by
  induction l with
  | nil => simp [sortLe]
  | cons x xs ih =>
    exact (perm_insertLe le x (sortLe le xs)).trans (ih.cons x)

theorem mem_sortLe {α : Type} (le : α → α → Bool) (a : α) (l : List α) :
    a ∈ sortLe le l ↔ a ∈ l :=
  (perm_sortLe le l).mem_iff

theorem length_sortLe {α : Type} (le : α → α → Bool) (l : List α) :
    (sortLe le l).length = l.length :=
  (perm_sortLe le l).length_eq

theorem pairwise_insertLe {α : Type} (le : α → α → Bool)
    (htot : ∀ a b, le a b = false → le b a = true)
    (htrans : ∀ a b c, le a b = true → le b c = true → le a c = true)
    (x : α) (l : List α) (hl : l.Pairwise (fun a b => le a b = true)) :
    (insertLe le x l).Pairwise (fun a b => le a b = true) := by
  induction l with
  | nil => simp [insertLe]
  | cons y ys ih =>
    rcases List.pairwise_cons.mp hl with ⟨hy, hys⟩
    by_cases h : le x y
    · simp only [insertLe, h, if_pos]
      refine List.pairwise_cons.mpr ⟨?_, hl⟩
      intro b hb
      rcases List.mem_cons.mp hb with rfl | hb
      · exact h
      · exact htrans x y b h (hy b hb)
    · simp only [insertLe, h, if_neg]
      refine List.pairwise_cons.mpr ⟨?_, ih hys⟩
      intro b hb
      rcases List.mem_cons.mp ((perm_insertLe le x ys).mem_iff.mp hb) with rfl | hb
      · exact htot _ _ (by simpa using h)
      · exact hy b hb

theorem pairwise_sortLe {α : Type} (le : α → α → Bool)
    (htot : ∀ a b, le a b = false → le b a = true)
    (htrans : ∀ a b c, le a b = true → le b c = true → le a c = true)
    (l : List α) : (sortLe le l).Pairwise (fun a b => le a b = true) := by
  induction l with
  | nil => simp [sortLe]
  | cons x xs ih => exact pairwise_insertLe le htot htrans x (sortLe le xs) ih

/-! ## Basic data of the vector service -/

/-- Error taxonomy of the spec, standing for the exceptions the Python
code raises: `TenantMismatch` for `ValueError("Collection does not belong
to user")`, `DimensionMismatch` for numpy's shape `ValueError` and
chromadb's `InvalidDimensionException`, `NotFound` for chromadb's error
on deleting a missing collection, `InternalError` for a stale cached
handle. -/
inductive VErr where
  | TenantMismatch
  | NotFound
  | DimensionMismatch
  | InternalError
deriving DecidableEq, Repr

/-- Vectors: Python `List[float]`, modelled with exact rationals. -/
abbrev Vec := List ℚ

/-- A metadata value (Python `Any`, restricted to the shapes the service
itself ever writes or compares: strings and numbers). -/
inductive MVal where
  | str (s : String)
  | nat (n : Nat)
deriving DecidableEq, Repr

/-- A Python dict used as metadata, as its insertion sequence; a later
binding of a key overrides an earlier one, so lookup takes the last. -/
abbrev Metadata := List (String × MVal)

/-- Dict lookup: the value of the last binding of `k`, as in
`metadata.get(k)`. -/
def mget (m : Metadata) (k : String) : Option MVal :=
  (m.reverse.find? (fun p => p.1 = k)).map (fun p => p.2)

/-- Python's `str.startswith`, on the character sequences (the Lean core
`String.startsWith` is equivalent but does not reduce in the kernel). -/
def listPre : List Char → List Char → Bool
  | [], _ => true
  | _ :: _, [] => false
  | a :: as, b :: bs => a = b && listPre as bs

/-- `pyStartsWith s pre` models Python `s.startswith(pre)`. -/
def pyStartsWith (s pre : String) : Bool :=
  listPre pre.data s.data

/-! ## The similarity engine: `VectorService.calculate_similarity` -/

/-- `np.dot` on two 1-D arrays: the sum of pointwise products when the
lengths agree; numpy raises a shape `ValueError` otherwise, recorded as
`DimensionMismatch`. -/
def npDot (a b : Vec) : Except VErr ℚ :=
  if a.length = b.length then
    Except.ok (((a.zip b).map (fun p => p.1 * p.2)).sum)
  else Except.error VErr.DimensionMismatch

/-- The square of `np.linalg.norm v`: the sum of squares.  Over exact
numbers `norm v == 0` iff `normSq v == 0`, so the code's zero test on the
norm is embedded as a zero test on this value. -/
def normSq (v : Vec) : ℚ :=
  (v.map (fun x => x * x)).sum

/-- The value `calculate_similarity` returns: `zeroNorm` is the literal
`0.0` returned when either norm is zero; `cosRatio d a b` stands for
`d / (sqrt a * sqrt b)`, kept symbolic because square roots leave ℚ. -/
inductive CosValue where
  | zeroNorm
  | cosRatio (dotp nsq1 nsq2 : ℚ)
deriving DecidableEq, Repr

/-- `VectorService.calculate_similarity`: cosine similarity of two
embeddings; `dot / (norm1 * norm2)` with an early `0.0` return when
either norm is zero; any exception (numpy's shape error) propagates. -/
def calculate_similarity (embedding1 embedding2 : Vec) : Except VErr CosValue :=
  match npDot embedding1 embedding2 with
  | Except.error e => Except.error e
  | Except.ok dotp =>
    if normSq embedding1 = 0 ∨ normSq embedding2 = 0 then
      Except.ok CosValue.zeroNorm
    else
      Except.ok (CosValue.cosRatio dotp (normSq embedding1) (normSq embedding2))

/-! ## The chromadb model and the `VectorService` state -/

/-- One stored tuple of a chroma collection: id, embedding, document
text, metadata.  Ids come from the model's fresh-id supply standing for
`uuid.uuid4()`. -/
structure ChromaRecord where
  rid : Nat
  embedding : Vec
  document : String
  mdata : Metadata
deriving DecidableEq, Repr

/-- A chroma collection: its name, the `{"user_id": ...}` metadata it was
created with, its established dimension (`none` until the first insert,
as in chromadb), and its records in insertion order. -/
structure ChromaCollection where
  name : String
  owner : String
  dim : Option Nat
  records : List ChromaRecord
deriving DecidableEq, Repr

/-- The state of a `VectorService` instance: the chroma client's
collections, the in-memory handle cache `self.collections` (as the set of
cached names; a cached handle is the client's collection of that name),
and the fresh-id supply standing for `uuid.uuid4()`. -/
structure VSState where
  client : List ChromaCollection
  cache : List String
  nextId : Nat
deriving DecidableEq, Repr

/-- `client.get_collection(name)` : the collection of that name. -/
def findCol (cols : List ChromaCollection) (name : String) : Option ChromaCollection :=
  cols.find? (fun c => c.name = name)

/-- Write back a (mutated) collection handle into the client. -/
def updateCol (s : VSState) (col : ChromaCollection) : VSState :=
  { s with client := s.client.map (fun c => if c.name = col.name then col else c) }

/-- `VectorService._get_collection(user_id)`: the collection named
`user_{user_id}`, from the cache when cached, otherwise fetched from the
client, otherwise freshly created (with `{"user_id": user_id}` metadata)
and cached.  `none` only for a stale cache entry whose backing collection
is gone, in which case every operation on the handle fails. -/
def getCollection (s : VSState) (user_id : String) : VSState × Option ChromaCollection :=
  let name := "user_" ++ user_id
  if name ∈ s.cache then (s, findCol s.client name)
  else
    match findCol s.client name with
    | some col => ({ s with cache := name :: s.cache }, some col)
    | none =>
      let col : ChromaCollection := { name := name, owner := user_id, dim := none, records := [] }
      ({ s with client := s.client ++ [col], cache := name :: s.cache }, some col)

/-- chromadb `collection.add` with a single record: the collection's
dimension is established by the first insert; a later insert whose vector
length differs raises `InvalidDimensionException` and stores nothing. -/
def chromaAdd (col : ChromaCollection) (rid : Nat) (v : Vec) (doc : String)
    (m : Metadata) : Except VErr ChromaCollection :=
  match col.dim with
  | none =>
    Except.ok { col with dim := some v.length,
                         records := col.records ++ [⟨rid, v, doc, m⟩] }
  | some d =>
    if v.length = d then
      Except.ok { col with records := col.records ++ [⟨rid, v, doc, m⟩] }
    else Except.error VErr.DimensionMismatch

/-- The metadata `store_embedding` attaches: the dict literal
`{'document_id': ..., 'user_id': ..., 'text_length': ..., **(metadata or {})}`;
caller entries come later so they override on key collision. -/
def buildMeta (document_id user_id : String) (text : String) (extra : Metadata) : Metadata :=
  [("document_id", MVal.str document_id), ("user_id", MVal.str user_id),
   ("text_length", MVal.nat text.length)] ++ extra

/-- `VectorService.store_embedding`: resolves the user's collection,
draws a fresh id (`uuid.uuid4()`), and adds the embedding with its
metadata; returns the new id, or propagates the index's exception. -/
def store_embedding (s : VSState) (text : String) (embedding : Vec)
    (document_id user_id : String) (metadata : Metadata) :
    VSState × Except VErr Nat :=
  match getCollection s user_id with
  | (s1, none) => (s1, Except.error VErr.InternalError)
  | (s1, some col) =>
    let vector_id := s1.nextId
    let m := buildMeta document_id user_id text metadata
    match chromaAdd col vector_id embedding text m with
    | Except.error e => ({ s1 with nextId := vector_id + 1 }, Except.error e)
    | Except.ok col1 =>
      ({ updateCol s1 col1 with nextId := vector_id + 1 }, Except.ok vector_id)

/-! ## Nearest-neighbor search -/

/-- Squared L2 distance, chromadb's default metric, on equal-length
vectors (callers guard the lengths via the collection dimension). -/
def sqDist (a b : Vec) : ℚ :=
  ((a.zip b).map (fun p => (p.1 - p.2) * (p.1 - p.2))).sum

/-- A search candidate: insertion index, record, distance to the query. -/
abbrev Ranked := Nat × ChromaRecord × ℚ

/-- Candidate order of the index model: ascending distance, ties by
insertion index, as the spec fixes for the index's `query` contract. -/
def distLe (x y : Ranked) : Bool :=
  decide (x.2.2 < y.2.2 ∨ (x.2.2 = y.2.2 ∧ x.1 ≤ y.1))

/-- The `n` nearest records to `q`: every stored record is ranked by
distance (brute force) and the first `n` are returned. -/
def topByDist (records : List ChromaRecord) (q : Vec) (n : Nat) : List Ranked :=
  (sortLe distLe (records.enum.map (fun p => (p.1, p.2, sqDist p.2.embedding q)))).take n

/-- chromadb `collection.query` with one query embedding: empty result on
a collection with no established dimension; a query vector of the wrong
length raises; otherwise the `n_results` nearest by ascending distance. -/
def chromaQuery (col : ChromaCollection) (q : Vec) (n : Nat) :
    Except VErr (List Ranked) :=
  match col.dim with
  | none => Except.ok []
  | some d =>
    if q.length = d then Except.ok (topByDist col.records q n)
    else Except.error VErr.DimensionMismatch

/-- One formatted search hit as `search_similar` builds it; `idx` is the
underlying record's insertion index, carried by the model so ordering
properties can be stated (the service's payload has the other five
fields: id, document, metadata, similarity, distance). -/
structure SearchResult where
  idx : Nat
  rid : Nat
  document : String
  mdata : Metadata
  similarity : ℚ
  distance : ℚ
deriving DecidableEq, Repr

/-- The result loop of `search_similar`: `similarity = 1 - distance`,
keeping exactly the hits with `similarity >= threshold`, in the index's
order. -/
def formatResults (threshold : ℚ) (ranked : List Ranked) : List SearchResult :=
  (ranked.filter (fun x => decide (1 - x.2.2 ≥ threshold))).map
    (fun x => { idx := x.1, rid := x.2.1.rid, document := x.2.1.document,
                mdata := x.2.1.mdata, similarity := 1 - x.2.2, distance := x.2.2 })

/-- `VectorService.search_similar`: resolves the user's collection,
queries the index for the `limit` nearest hits, converts distance to
similarity and filters by the threshold. -/
def search_similar (s : VSState) (query_embedding : Vec) (user_id : String)
    (limit : Nat) (threshold : ℚ) :
    VSState × Except VErr (List SearchResult) :=
  match getCollection s user_id with
  | (s1, none) => (s1, Except.error VErr.InternalError)
  | (s1, some col) =>
    match chromaQuery col query_embedding limit with
    | Except.error e => (s1, Except.error e)
    | Except.ok ranked => (s1, Except.ok (formatResults threshold ranked))

/-! ## Deletion, tenant check, statistics -/

/-- Does a chroma record match `where={"document_id": d}`? -/
def matchesDoc (r : ChromaRecord) (document_id : String) : Bool :=
  mget r.mdata "document_id" = some (MVal.str document_id)

/-- `VectorService.delete_document_embeddings`: fetches the ids matching
`where={"document_id": ...}` and deletes them when there are any.  The
Python function returns `None` (the deleted count is only logged), so
the result value is `Option Nat`, always `none`. -/
def delete_document_embeddings (s : VSState) (document_id user_id : String) :
    VSState × Except VErr (Option Nat) :=
  match getCollection s user_id with
  | (s1, none) => (s1, Except.error VErr.InternalError)
  | (s1, some col) =>
    let ids := (col.records.filter (fun r => matchesDoc r document_id)).map (fun r => r.rid)
    if ids.isEmpty then (s1, Except.ok none)
    else
      let col1 := { col with records := col.records.filter (fun r => ¬ r.rid ∈ ids) }
      (updateCol s1 col1, Except.ok none)

/-- `VectorService.delete_collection`: rejects when `collection_name`
does not start with `user_{user_id}` (Python raises
`ValueError("Collection does not belong to user")`); otherwise deletes
the backing collection (chromadb raises when it does not exist) and
drops the cache entry if present. -/
def delete_collection (s : VSState) (collection_name user_id : String) :
    VSState × Except VErr Unit :=
  if ¬ pyStartsWith collection_name ("user_" ++ user_id) then
    (s, Except.error VErr.TenantMismatch)
  else
    match findCol s.client collection_name with
    | none => (s, Except.error VErr.NotFound)
    | some _ =>
      ({ s with client := s.client.filter (fun c => ¬ c.name = collection_name),
                cache := s.cache.filter (fun n => ¬ n = collection_name) },
       Except.ok ())

/-- The key `get_collection_stats` counts a record under:
`metadata.get('document_id', 'unknown')`. -/
def docKey (r : ChromaRecord) : MVal :=
  match mget r.mdata "document_id" with
  | some v => v
  | none => MVal.str "unknown"

/-- One step of the `document_counts` dict accumulation:
`document_counts[doc_id] = document_counts.get(doc_id, 0) + 1`. -/
def bumpCount (l : List (MVal × Nat)) (k : MVal) : List (MVal × Nat) :=
  if l.any (fun p => p.1 = k) then
    l.map (fun p => if p.1 = k then (p.1, p.2 + 1) else p)
  else l ++ [(k, 1)]

/-- What `get_collection_stats` returns (the `document_distribution`
dict, whose length is `unique_documents`, is kept as the association
list `document_counts`). -/
structure CollectionStats where
  total_embeddings : Nat
  unique_documents : Nat
  document_counts : List (MVal × Nat)
  collection_name : String
deriving DecidableEq, Repr

/-- `VectorService.get_collection_stats`: `count = collection.count()`
is live, but the document distribution is computed from
`collection.get(limit=100, ...)` — a sample of the first `100` records
only. -/
def get_collection_stats (s : VSState) (user_id : String) :
    VSState × Except VErr CollectionStats :=
  match getCollection s user_id with
  | (s1, none) => (s1, Except.error VErr.InternalError)
  | (s1, some col) =>
    let count := col.records.length
    let sample := col.records.take 100
    let document_counts := sample.foldl (fun acc r => bumpCount acc (docKey r)) []
    (s1, Except.ok { total_embeddings := count,
                     unique_documents := document_counts.length,
                     document_counts := document_counts,
                     collection_name := "user_" ++ user_id })

/-! ## `EmbeddingService.get_embedding_dimension` -/

/-- `EmbeddingService.get_embedding_dimension`: the fixed dimension table
(OpenAI models by name with a 1536 default; the two local
sentence-transformer models report 384 and 768, the values the service's
own model table `get_available_models` lists). -/
def get_embedding_dimension (model : String) : Nat :=
  if pyStartsWith model "text-embedding" then
    if model = "text-embedding-ada-002" then 1536
    else if model = "text-embedding-3-small" then 1536
    else if model = "text-embedding-3-large" then 3072
    else 1536
  else if model = "all-MiniLM-L6-v2" then 384
  else if model = "all-mpnet-base-v2" then 768
  else 1536

/-! ## The `DocumentEmbedding` MongoDB model -/

/-- One document of the `document_embeddings` MongoDB collection, with
creation and update instants as abstract ticks. -/
structure MongoRec where
  mid : Nat
  document_id : String
  user_id : String
  text : String
  embedding : Vec
  model : String
  mdata : Metadata
  created_at : Nat
  updated_at : Nat
deriving DecidableEq, Repr

/-- `sort('created_at', -1)` order: descending `created_at`; Mongo fixes
no tie order, modelled as stable (insertion order). -/
def createdDesc (x y : MongoRec) : Bool :=
  decide (y.created_at ≤ x.created_at)

/-- `DocumentEmbedding.get_by_user(user_id, page, limit)`: total from
`count_documents`, then the user's records sorted by `created_at`
descending with `skip((page - 1) * limit).limit(limit)`.  pymongo
rejects a negative skip, and the function's `except` arm turns any
exception into `([], 0)`. -/
def get_by_user (db : List MongoRec) (user_id : String) (page : Int) (limit : Nat) :
    List MongoRec × Nat :=
  let skip : Int := (page - 1) * limit
  if skip < 0 then ([], 0)
  else
    let total := (db.filter (fun r => r.user_id = user_id)).length
    let sorted := sortLe createdDesc (db.filter (fun r => r.user_id = user_id))
    ((sorted.drop skip.toNat).take limit, total)

/-- `DocumentEmbedding.delete_by_document(document_id, user_id)`:
`delete_many` on both keys; the deleted count is only printed, the
Python function returns `None`, so the result value is always `none`. -/
def delete_by_document (db : List MongoRec) (document_id user_id : String) :
    List MongoRec × Option Nat :=
  (db.filter (fun r => ¬ (r.document_id = document_id ∧ r.user_id = user_id)), none)

/-! ## Derived notions and concrete stores used in the statements below -/

/-- The number of distinct values in a list, by a first-seen scan. -/
def countDistinct (l : List MVal) : Nat :=
  (l.foldl (fun seen k => if k ∈ seen then seen else seen ++ [k]) []).length

/-- The total and unique-document fields of `get_collection_stats`. -/
def statsOf (s : VSState) (user_id : String) : Option (Nat × Nat) :=
  match (get_collection_stats s user_id).2 with
  | Except.ok st => some (st.total_embeddings, st.unique_documents)
  | Except.error _ => none

/-- The records of the named collection (empty when it is missing). -/
def colRecords (s : VSState) (name : String) : List ChromaRecord :=
  match findCol s.client name with
  | some c => c.records
  | none => []

/-- A fresh service state: no collections, nothing cached. -/
def emptyVS : VSState := ⟨[], [], 0⟩

/-- A state whose only collection is `user_AB`, owned by user `AB`. -/
def stateAB : VSState := ⟨[⟨"user_AB", "AB", none, []⟩], ["user_AB"], 0⟩

/-- A state with an empty collection for user `u` whose dimension is
established at 2. -/
def stateDim2 : VSState := ⟨[⟨"user_u", "u", some 2, []⟩], [], 5⟩

/-- A state with one stored embedding for document `d` of user `u`. -/
def stateDoc : VSState :=
  ⟨[⟨"user_u", "u", some 1,
     [⟨0, [1], "t", [("document_id", MVal.str "d"), ("user_id", MVal.str "u"),
                     ("text_length", MVal.nat 1)]⟩]⟩], ["user_u"], 1⟩

/-- 101 records with pairwise distinct document ids. -/
def recs101 : List ChromaRecord :=
  (List.range 101).map (fun i => ⟨i, [], "", [("document_id", MVal.nat i)]⟩)

/-- A state whose collection for user `u` holds `recs101`. -/
def state101 : VSState := ⟨[⟨"user_u", "u", some 1, recs101⟩], ["user_u"], 0⟩

/-- A state with two 1-dimensional embeddings for user `u`, at distance
0 and 1 from the query `[0]`. -/
def stateSearch : VSState :=
  ⟨[⟨"user_u", "u", some 1, [⟨0, [0], "a", []⟩, ⟨1, [1], "b", []⟩]⟩], ["user_u"], 2⟩

/-- A state with two embeddings at the same distance from the query
`[0]`, to exercise tie-breaking. -/
def stateTie : VSState :=
  ⟨[⟨"user_u", "u", some 1, [⟨0, [0], "a", []⟩, ⟨1, [0], "b", []⟩]⟩], ["user_u"], 2⟩

/-- Fifteen Mongo records for user `u`, created at ticks 0..14. -/
def db15 : List MongoRec :=
  (List.range 15).map (fun i => ⟨i, "d", "u", "", [], "m", [], i, i⟩)

/-- Two Mongo records whose creation order and update order disagree:
the first was created later (tick 2) but updated earlier (tick 1). -/
def dbX : List MongoRec :=
  [⟨0, "d", "u", "", [], "m", [], 2, 1⟩, ⟨1, "d", "u", "", [], "m", [], 1, 2⟩]

/-! ## Helper lemmas on the state operations -/

theorem getCollection_nextId (s : VSState) (u : String) :
    (getCollection s u).1.nextId = s.nextId := by
  unfold getCollection
  by_cases h : ("user_" ++ u) ∈ s.cache
  · simp [h]
  · simp only [h, if_neg, not_false_iff]
    cases findCol s.client ("user_" ++ u) <;> simp

theorem getCollection_cache (s : VSState) (u : String) (s1 : VSState)
    (r : Option ChromaCollection) (h : getCollection s u = (s1, r)) :
    ("user_" ++ u) ∈ s1.cache := by
  unfold getCollection at h
  by_cases hc : ("user_" ++ u) ∈ s.cache
  · simp only [hc, if_pos] at h
    cases h; exact hc
  · simp only [hc, if_neg, not_false_iff] at h
    cases hfind : findCol s.client ("user_" ++ u) <;> rw [hfind] at h <;>
      cases h <;> simp

theorem getCollection_name (s : VSState) (u : String) (s1 : VSState)
    (col : ChromaCollection) (h : getCollection s u = (s1, some col)) :
    col.name = "user_" ++ u := by
  unfold getCollection at h
  by_cases hc : ("user_" ++ u) ∈ s.cache
  · rw [if_pos hc] at h
    cases hfind : findCol s.client ("user_" ++ u) <;> rw [hfind] at h <;>
      rw [Prod.mk.injEq] at h
    · exact absurd h.2 (by simp)
    · obtain ⟨-, h2⟩ := h
      obtain rfl := Option.some_injective _ h2
      have := List.find?_some hfind
      simpa using this
  · rw [if_neg hc] at h
    cases hfind : findCol s.client ("user_" ++ u) <;> rw [hfind] at h <;>
      rw [Prod.mk.injEq] at h
    · obtain ⟨-, h2⟩ := h
      obtain rfl := Option.some_injective _ h2
      rfl
    · obtain ⟨-, h2⟩ := h
      obtain rfl := Option.some_injective _ h2
      have := List.find?_some hfind
      simpa using this

theorem getCollection_find (s : VSState) (u : String) (s1 : VSState)
    (col : ChromaCollection) (h : getCollection s u = (s1, some col)) :
    findCol s1.client ("user_" ++ u) = some col := by
  unfold getCollection at h
  by_cases hc : ("user_" ++ u) ∈ s.cache
  · rw [if_pos hc] at h
    rw [Prod.mk.injEq] at h
    obtain ⟨rfl, h2⟩ := h
    exact h2
  · rw [if_neg hc] at h
    cases hfind : findCol s.client ("user_" ++ u) <;> rw [hfind] at h <;>
      rw [Prod.mk.injEq] at h
    · obtain ⟨h1, h2⟩ := h
      obtain rfl := Option.some_injective _ h2
      rw [← h1]
      simp only [findCol, List.find?_append]
      have hfind' : List.find? (fun c => decide (c.name = "user_" ++ u)) s.client = none := by
        simpa [findCol] using hfind
      rw [hfind']
      simp
    · obtain ⟨h1, h2⟩ := h
      obtain rfl := Option.some_injective _ h2
      rw [← h1]
      exact hfind

theorem find?_replace (cols : List ChromaCollection) (name : String)
    (col col1 : ChromaCollection)
    (hfind : List.find? (fun c => decide (c.name = name)) cols = some col)
    (hname : col1.name = name) :
    List.find? (fun c => decide (c.name = name))
      (cols.map (fun c => if c.name = col1.name then col1 else c)) = some col1 := by
  induction cols with
  | nil => simp at hfind
  | cons c cs ih =>
    by_cases hc : c.name = name
    · simp [hc, hname]
    · rw [List.find?_cons_of_neg _ (by simp [hc])] at hfind
      simp only [List.map_cons]
      rw [if_neg (by rw [hname]; exact hc)]
      rw [List.find?_cons_of_neg _ (by simp [hc])]
      exact ih hfind

theorem findCol_updateCol (s : VSState) (name : String) (col col1 : ChromaCollection)
    (hfind : findCol s.client name = some col) (hname : col1.name = name) :
    findCol (updateCol s col1).client name = some col1 :=
  find?_replace s.client name col col1 hfind hname

theorem updateCol_cache (s : VSState) (col : ChromaCollection) :
    (updateCol s col).cache = s.cache := rfl

/-! ## Helper lemmas on ranking -/

theorem distLe_total (a b : Ranked) (h : distLe a b = false) : distLe b a = true := by
  simp only [distLe, decide_eq_false_iff_not, decide_eq_true_eq] at h ⊢
  push_neg at h
  rcases eq_or_lt_of_le h.1 with heq | hlt
  · exact Or.inr ⟨heq, le_of_lt (h.2 heq.symm)⟩
  · exact Or.inl hlt

theorem distLe_trans (a b c : Ranked) (hab : distLe a b = true) (hbc : distLe b c = true) :
    distLe a c = true := by
  simp only [distLe, decide_eq_true_eq] at hab hbc ⊢
  rcases hab with h1 | ⟨h1, h1i⟩ <;> rcases hbc with h2 | ⟨h2, h2i⟩
  · exact Or.inl (h1.trans h2)
  · exact Or.inl (h2 ▸ h1)
  · exact Or.inl (h1 ▸ h2)
  · exact Or.inr ⟨h1.trans h2, Nat.le_trans h1i h2i⟩

theorem topByDist_mem (records : List ChromaRecord) (q : Vec) (n : Nat)
    (x : Ranked) (hx : x ∈ topByDist records q n) :
    x.2.1 ∈ records ∧ x.2.2 = sqDist x.2.1.embedding q := by
  unfold topByDist at hx
  have hx1 := (List.take_sublist n _).subset hx
  rw [mem_sortLe] at hx1
  rcases List.mem_map.mp hx1 with ⟨p, hp, rfl⟩
  have := List.mem_enum hp
  exact ⟨this.2 ▸ List.getElem_mem this.1, rfl⟩

theorem topByDist_length (records : List ChromaRecord) (q : Vec) (n : Nat) :
    (topByDist records q n).length ≤ n := by
  unfold topByDist
  simp [List.length_take]

theorem topByDist_pairwise (records : List ChromaRecord) (q : Vec) (n : Nat) :
    (topByDist records q n).Pairwise (fun a b => distLe a b = true) :=
  List.Pairwise.sublist (List.take_sublist n _)
    (pairwise_sortLe distLe distLe_total distLe_trans _)

theorem topByDist_idx_nodup (records : List ChromaRecord) (q : Vec) (n : Nat) :
    ((topByDist records q n).map (fun x => x.1)).Nodup := by
  unfold topByDist
  refine List.Nodup.sublist ((List.take_sublist n _).map _) ?_
  have hperm := (perm_sortLe distLe
    (records.enum.map (fun p => (p.1, p.2, sqDist p.2.embedding q)))).map (fun x : Ranked => x.1)
  rw [hperm.nodup_iff, List.map_map]
  have hcomp : ((fun x : Ranked => x.1) ∘ fun p : Nat × ChromaRecord =>
      (p.1, p.2, sqDist p.2.embedding q)) = Prod.fst := rfl
  rw [hcomp, List.enum_map_fst]
  exact List.nodup_range _

/-! ## C4: zero-norm cosine similarity -/

/-- C4: for equal-length vectors with either operand of zero norm,
`calculate_similarity` returns the literal `0.0` (the `zeroNorm` value):
no error is raised and no quotient (hence no NaN) is formed. -/
theorem c4_zero_norm_gives_zero (a b : Vec) (hlen : a.length = b.length)
    (hz : normSq a = 0 ∨ normSq b = 0) :
    calculate_similarity a b = Except.ok CosValue.zeroNorm := by
  simp [calculate_similarity, npDot, hlen, hz]

/-- Witness for C4 at `a = [0, 0]`, `b = [1, 2]`. -/
theorem c4_zero_norm_gives_zero_witness :
    calculate_similarity [0, 0] [1, 2] = Except.ok CosValue.zeroNorm :=
  c4_zero_norm_gives_zero [0, 0] [1, 2] rfl (Or.inl (by norm_num [normSq]))

/-! ## C7: mismatched lengths in cosine similarity -/

/-- C7: `calculate_similarity` on vectors of different lengths fails
with the dimension-mismatch error (numpy's shape `ValueError`, which the
error taxonomy names `DimensionMismatch`). -/
theorem c7_length_mismatch_fails (a b : Vec) (h : a.length ≠ b.length) :
    calculate_similarity a b = Except.error VErr.DimensionMismatch := by
  simp [calculate_similarity, npDot, h]

/-- Witness for C7 at `a = [1]`, `b = [1, 2]`. -/
theorem c7_length_mismatch_fails_witness :
    calculate_similarity [1] [1, 2] = Except.error VErr.DimensionMismatch :=
  c7_length_mismatch_fails [1] [1, 2] (by decide)

/-! ## C1: the tenant check of `delete_collection` -/

/-- C1 fails as stated: `user_AB` is the collection name derived for
user `AB`, not for user `A` (whose derived name is `user_A`), yet
`delete_collection` called by user `A` passes the `startswith` check,
succeeds, and deletes the backing collection. -/
theorem c1_counterexample :
    ("user_AB" : String) ≠ "user_" ++ "A" ∧
    (delete_collection stateAB "user_AB" "A").2 = Except.ok () ∧
    (delete_collection stateAB "user_AB" "A").2 ≠ Except.error VErr.TenantMismatch ∧
    findCol (delete_collection stateAB "user_AB" "A").1.client "user_AB" = none := by
  refine ⟨by decide, rfl, ?_, by decide⟩
  intro h
  exact Except.noConfusion
    ((rfl : Except.ok () = (delete_collection stateAB "user_AB" "A").2).trans h)

/-- C1 (amended): `delete_collection` verifies only that
`collection_name` starts with `user_{user_id}`.  When the prefix test
fails it rejects with `TenantMismatch` and deletes nothing (state
unchanged); when it passes and the backing collection exists, it deletes
the backing collection and evicts the cache entry — even when the name
was derived from a different user whose id merely extends `user_id`. -/
theorem c1_delete_collection_startswith (s : VSState) (collection_name user_id : String) :
    (pyStartsWith collection_name ("user_" ++ user_id) = false →
      delete_collection s collection_name user_id = (s, Except.error VErr.TenantMismatch)) ∧
    (pyStartsWith collection_name ("user_" ++ user_id) = true →
      ∀ col, findCol s.client collection_name = some col →
        (delete_collection s collection_name user_id).2 = Except.ok () ∧
        findCol (delete_collection s collection_name user_id).1.client collection_name = none ∧
        ¬ collection_name ∈ (delete_collection s collection_name user_id).1.cache) := by
  constructor
  · intro h
    simp [delete_collection, h]
  · intro h col hcol
    refine ⟨?_, ?_, ?_⟩
    · simp [delete_collection, h, hcol]
    · simp only [delete_collection, h, not_true_eq_false, if_false, hcol]
      simp only [findCol]
      rw [List.find?_eq_none]
      intro x hx
      rcases List.mem_filter.mp hx with ⟨-, hpx⟩
      simp only [decide_not, Bool.not_eq_true'] at hpx
      simp [hpx]
    · simp only [delete_collection, h, not_true_eq_false, if_false, hcol]
      intro hmem
      rcases List.mem_filter.mp hmem with ⟨-, hpx⟩
      simp at hpx

/-! ## C5: dimension checking on insert -/

/-- C5 fails as stated: `store_embedding` never compares the vector
against the model dimension.  A 3-component vector stored for model
`text-embedding-ada-002` (dimension 1536) into a fresh collection is
accepted and stored, with no `DimensionMismatch`. -/
theorem c5_counterexample :
    ([(1 : ℚ), 2, 3] : Vec).length ≠ get_embedding_dimension "text-embedding-ada-002" ∧
    (store_embedding emptyVS "hello" [1, 2, 3] "doc1" "A" []).2 = Except.ok 0 ∧
    colRecords (store_embedding emptyVS "hello" [1, 2, 3] "doc1" "A" []).1 "user_A"
      = [⟨0, [1, 2, 3], "hello", buildMeta "doc1" "A" "hello" []⟩] := by
  exact ⟨by decide, rfl, rfl⟩

/-- C5 (amended): the only dimension guard on `store_embedding` is the
backing index's own: a vector whose length differs from the collection's
established dimension (the length of its first insert, not the model's
dimension) is rejected with `DimensionMismatch` and nothing is stored;
the client is exactly as `_get_collection` left it. -/
theorem c5_store_embedding_dim_guard (s : VSState) (text : String) (v : Vec)
    (document_id user_id : String) (m : Metadata) (s1 : VSState)
    (col : ChromaCollection) (k : Nat)
    (hget : getCollection s user_id = (s1, some col)) (hdim : col.dim = some k)
    (hlen : v.length ≠ k) :
    (store_embedding s text v document_id user_id m).2
        = Except.error VErr.DimensionMismatch ∧
    (store_embedding s text v document_id user_id m).1.client = s1.client := by
  unfold store_embedding
  rw [hget]
  simp [chromaAdd, hdim, hlen]

/-- Witness for C5 (amended): a 3-component vector against an
established dimension of 2. -/
theorem c5_store_embedding_dim_guard_witness :
    (store_embedding stateDim2 "t" [1, 2, 3] "d" "u" []).2
        = Except.error VErr.DimensionMismatch ∧
    (store_embedding stateDim2 "t" [1, 2, 3] "d" "u" []).1.client
        = (⟨[⟨"user_u", "u", some 2, []⟩], ["user_u"], 5⟩ : VSState).client :=
  c5_store_embedding_dim_guard stateDim2 "t" [1, 2, 3] "d" "u" []
    ⟨[⟨"user_u", "u", some 2, []⟩], ["user_u"], 5⟩
    ⟨"user_u", "u", some 2, []⟩ 2 rfl rfl (by decide)

/-! ## More helper lemmas, for the insert path -/

theorem chromaAdd_ok (col col1 : ChromaCollection) (rid : Nat) (v : Vec)
    (doc : String) (m : Metadata) (h : chromaAdd col rid v doc m = Except.ok col1) :
    col1.name = col.name ∧ col1.dim = some v.length ∧
    col1.records = col.records ++ [⟨rid, v, doc, m⟩] := by
  obtain ⟨cname, cowner, cdim, crecs⟩ := col
  cases cdim with
  | none =>
    simp only [chromaAdd] at h
    simp only [Except.ok.injEq] at h
    subst h
    exact ⟨rfl, rfl, rfl⟩
  | some d =>
    simp only [chromaAdd] at h
    by_cases hv : v.length = d
    · rw [if_pos hv] at h
      simp only [Except.ok.injEq] at h
      subst h
      exact ⟨rfl, by simp [hv], rfl⟩
    · rw [if_neg hv] at h
      exact absurd h (by simp)

theorem getCollection_cached (s : VSState) (u : String)
    (h : ("user_" ++ u) ∈ s.cache) :
    getCollection s u = (s, findCol s.client ("user_" ++ u)) := by
  unfold getCollection
  rw [if_pos h]

/-! ## C10: fresh ids, no overwrites -/

/-- C10: two consecutive `store_embedding` calls with identical
arguments draw two distinct fresh ids and append two distinct records;
nothing already stored is overwritten (the prior records survive as a
prefix). -/
theorem c10_store_embedding_fresh_ids (s : VSState) (text : String) (v : Vec)
    (document_id user_id : String) (m : Metadata) (s1 s2 : VSState) (id1 id2 : Nat)
    (h1 : store_embedding s text v document_id user_id m = (s1, Except.ok id1))
    (h2 : store_embedding s1 text v document_id user_id m = (s2, Except.ok id2)) :
    id1 ≠ id2 ∧
    ∃ col2, findCol s2.client ("user_" ++ user_id) = some col2 ∧
      ∃ l, col2.records
          = l ++ [⟨id1, v, text, buildMeta document_id user_id text m⟩,
                  ⟨id2, v, text, buildMeta document_id user_id text m⟩] := by
  unfold store_embedding at h1
  rcases hget1 : getCollection s user_id with ⟨sA, oc⟩
  rw [hget1] at h1
  cases oc with
  | none => exact absurd (congrArg Prod.snd h1) (by simp)
  | some col0 =>
    have hname0 : col0.name = "user_" ++ user_id := getCollection_name _ _ _ _ hget1
    have hfind0 : findCol sA.client ("user_" ++ user_id) = some col0 :=
      getCollection_find _ _ _ _ hget1
    have hcache : ("user_" ++ user_id) ∈ sA.cache := getCollection_cache _ _ _ _ hget1
    dsimp only at h1
    cases hadd : chromaAdd col0 sA.nextId v text
        (buildMeta document_id user_id text m) with
    | error e =>
      rw [hadd] at h1
      exact absurd (congrArg Prod.snd h1) (by simp)
    | ok col1 =>
      rw [hadd] at h1
      rw [Prod.mk.injEq] at h1
      obtain ⟨hs1, hid1⟩ := h1
      simp only [Except.ok.injEq] at hid1
      obtain ⟨hn1, hd1, hr1⟩ := chromaAdd_ok _ _ _ _ _ _ hadd
      have hfind1 : findCol s1.client ("user_" ++ user_id) = some col1 := by
        rw [← hs1]
        exact findCol_updateCol sA _ col0 col1 hfind0 (hn1.trans hname0)
      have hcache1 : ("user_" ++ user_id) ∈ s1.cache := by
        rw [← hs1]
        exact hcache
      have hnext1 : s1.nextId = sA.nextId + 1 := by rw [← hs1]
      unfold store_embedding at h2
      rw [getCollection_cached s1 user_id hcache1, hfind1] at h2
      dsimp only at h2
      cases hadd2 : chromaAdd col1 s1.nextId v text
          (buildMeta document_id user_id text m) with
      | error e =>
        rw [hadd2] at h2
        exact absurd (congrArg Prod.snd h2) (by simp)
      | ok col2 =>
        rw [hadd2] at h2
        rw [Prod.mk.injEq] at h2
        obtain ⟨hs2, hid2⟩ := h2
        simp only [Except.ok.injEq] at hid2
        obtain ⟨hn2, hd2, hr2⟩ := chromaAdd_ok _ _ _ _ _ _ hadd2
        refine ⟨?_, col2, ?_, col0.records, ?_⟩
        · rw [← hid1, ← hid2, hnext1]
          omega
        · rw [← hs2]
          exact findCol_updateCol s1 _ col1 col2 hfind1 (hn2.trans (hn1.trans hname0))
        · rw [hr2, hr1, hid1, hid2, List.append_assoc]
          rfl

/-- Witness for C10: two inserts into a fresh service state. -/
theorem c10_store_embedding_fresh_ids_witness :
    (0 : Nat) ≠ 1 ∧
    ∃ col2, findCol (store_embedding
        (store_embedding emptyVS "t" [1] "d" "u" []).1 "t" [1] "d" "u" []).1.client
        ("user_" ++ "u") = some col2 ∧
      ∃ l, col2.records
          = l ++ [⟨0, [1], "t", buildMeta "d" "u" "t" []⟩,
                  ⟨1, [1], "t", buildMeta "d" "u" "t" []⟩] :=
  c10_store_embedding_fresh_ids emptyVS "t" [1] "d" "u" []
    (store_embedding emptyVS "t" [1] "d" "u" []).1
    (store_embedding (store_embedding emptyVS "t" [1] "d" "u" []).1 "t" [1] "d" "u" []).1
    0 1 rfl rfl

/-! ## C6: deletion by document -/

/-- C6 fails as stated: deleting the embeddings of document `d` removes
the one matching record but the call returns Python's `None` — not the
count `1` the claim requires. -/
theorem c6_counterexample :
    ((colRecords stateDoc "user_u").filter (fun r => matchesDoc r "d")).length = 1 ∧
    (delete_document_embeddings stateDoc "d" "u").2 = Except.ok none ∧
    (delete_document_embeddings stateDoc "d" "u").2 ≠ Except.ok (some 1) ∧
    colRecords (delete_document_embeddings stateDoc "d" "u").1 "user_u" = [] := by
  refine ⟨rfl, rfl, ?_, rfl⟩
  intro h
  exact Option.noConfusion (Except.ok.inj h)

theorem delete_document_embeddings_noop (s : VSState) (document_id user_id : String)
    (col : ChromaCollection) (hcache : ("user_" ++ user_id) ∈ s.cache)
    (hfind : findCol s.client ("user_" ++ user_id) = some col)
    (hnone : ∀ r ∈ col.records, ¬ matchesDoc r document_id = true) :
    delete_document_embeddings s document_id user_id = (s, Except.ok none) := by
  unfold delete_document_embeddings
  rw [getCollection_cached s user_id hcache, hfind]
  dsimp only
  have hflt : col.records.filter (fun r => matchesDoc r document_id) = [] :=
    List.filter_eq_nil_iff.mpr hnone
  rw [if_pos (by rw [hflt]; rfl)]

theorem delete_document_embeddings_eq (s : VSState) (document_id user_id : String)
    (s1 : VSState) (col : ChromaCollection)
    (hget : getCollection s user_id = (s1, some col)) :
    delete_document_embeddings s document_id user_id
      = (if ((col.records.filter (fun x => matchesDoc x document_id)).map
            (fun x => x.rid)).isEmpty
         then (s1, Except.ok none)
         else (updateCol s1 { col with records := (col.records.filter (fun r =>
                decide (¬ r.rid ∈ (col.records.filter
                  (fun x => matchesDoc x document_id)).map (fun x => x.rid)))) },
               Except.ok none)) := by
  unfold delete_document_embeddings
  rw [hget]

/-- C6 (amended): `delete_document_embeddings` removes exactly the
records whose metadata `document_id` matches and returns `None` (the
removed count is only logged, never returned); removing zero records is
not an error, so an immediate second call changes nothing and again
returns `None`. -/
theorem c6_delete_document_embeddings_spec (s : VSState) (document_id user_id : String)
    (s1 : VSState) (col : ChromaCollection)
    (hget : getCollection s user_id = (s1, some col))
    (hrids : (col.records.map (fun r => r.rid)).Nodup) :
    (delete_document_embeddings s document_id user_id).2 = Except.ok none ∧
    (∃ col1, findCol (delete_document_embeddings s document_id user_id).1.client
        ("user_" ++ user_id) = some col1 ∧
      col1.records = col.records.filter (fun r => !(matchesDoc r document_id))) ∧
    delete_document_embeddings (delete_document_embeddings s document_id user_id).1
        document_id user_id
      = ((delete_document_embeddings s document_id user_id).1, Except.ok none) := by
  have hname : col.name = "user_" ++ user_id := getCollection_name _ _ _ _ hget
  have hfind : findCol s1.client ("user_" ++ user_id) = some col :=
    getCollection_find _ _ _ _ hget
  have hcache : ("user_" ++ user_id) ∈ s1.cache := getCollection_cache _ _ _ _ hget
  have hmem_ids : ∀ r ∈ col.records,
      (r.rid ∈ (col.records.filter (fun x => matchesDoc x document_id)).map
        (fun x => x.rid)) ↔ matchesDoc r document_id = true := by
    intro r hr
    constructor
    · intro hin
      rcases List.mem_map.mp hin with ⟨r1, hr1, hrid⟩
      rcases List.mem_filter.mp hr1 with ⟨hr1m, hr1p⟩
      have := List.inj_on_of_nodup_map hrids hr1m hr hrid
      rw [← this]
      exact hr1p
    · intro hm
      exact List.mem_map.mpr ⟨r, List.mem_filter.mpr ⟨hr, hm⟩, rfl⟩
  rw [delete_document_embeddings_eq s document_id user_id s1 col hget]
  by_cases hids : ((col.records.filter (fun x => matchesDoc x document_id)).map
      (fun x => x.rid)).isEmpty
  · rw [if_pos hids]
    have hflt : col.records.filter (fun x => matchesDoc x document_id) = [] := by
      rcases hflt : col.records.filter (fun x => matchesDoc x document_id) with _ | ⟨a, l⟩
      · rfl
      · rw [hflt] at hids
        simp [List.isEmpty] at hids
    have hnomatch : ∀ r ∈ col.records, ¬ matchesDoc r document_id = true :=
      List.filter_eq_nil_iff.mp hflt
    refine ⟨rfl, ⟨col, hfind, ?_⟩, ?_⟩
    · refine (List.filter_eq_self.mpr ?_).symm
      intro a ha
      cases hm : matchesDoc a document_id
      · rfl
      · exact absurd hm (hnomatch a ha)
    · exact delete_document_embeddings_noop s1 document_id user_id col hcache hfind hnomatch
  · rw [if_neg hids]
    have hrecs1 : col.records.filter
        (fun r => decide (¬ r.rid ∈ (col.records.filter
          (fun x => matchesDoc x document_id)).map (fun x => x.rid)))
        = col.records.filter (fun r => !(matchesDoc r document_id)) := by
      apply List.filter_congr
      intro a ha
      cases hm : matchesDoc a document_id with
      | false =>
        have hni : ¬ (a.rid ∈ (col.records.filter
            (fun x => matchesDoc x document_id)).map (fun x => x.rid)) := by
          intro hin
          have := (hmem_ids a ha).mp hin
          rw [hm] at this
          cases this
        simp [hni]
      | true =>
        have hin := (hmem_ids a ha).mpr hm
        simp [hin]
    have hfind1 := findCol_updateCol s1 ("user_" ++ user_id) col
      { col with records := (col.records.filter (fun r =>
          decide (¬ r.rid ∈ (col.records.filter
            (fun x => matchesDoc x document_id)).map (fun x => x.rid)))) }
      hfind hname
    have hnomatch1 : ∀ r ∈ ({ col with records := (col.records.filter (fun r =>
        decide (¬ r.rid ∈ (col.records.filter
          (fun x => matchesDoc x document_id)).map (fun x => x.rid)))) }
          : ChromaCollection).records,
        ¬ matchesDoc r document_id = true := by
      intro r hr hm
      rcases List.mem_filter.mp hr with ⟨hrm, hrp⟩
      have hin := (hmem_ids r hrm).mpr hm
      rw [decide_eq_true_eq] at hrp
      exact hrp hin
    refine ⟨rfl, ⟨_, hfind1, hrecs1⟩, ?_⟩
    exact delete_document_embeddings_noop _ document_id user_id _ hcache hfind1 hnomatch1

/-- Witness for C6 (amended): one stored embedding for document `d`. -/
theorem c6_delete_document_embeddings_spec_witness :
    (delete_document_embeddings stateDoc "d" "u").2 = Except.ok none ∧
    (∃ col1, findCol (delete_document_embeddings stateDoc "d" "u").1.client
        ("user_" ++ "u") = some col1 ∧
      col1.records = (colRecords stateDoc "user_u").filter
        (fun r => !(matchesDoc r "d"))) ∧
    delete_document_embeddings (delete_document_embeddings stateDoc "d" "u").1 "d" "u"
      = ((delete_document_embeddings stateDoc "d" "u").1, Except.ok none) :=
  c6_delete_document_embeddings_spec stateDoc "d" "u" stateDoc
    ⟨"user_u", "u", some 1,
     [⟨0, [1], "t", [("document_id", MVal.str "d"), ("user_id", MVal.str "u"),
                     ("text_length", MVal.nat 1)]⟩]⟩ rfl (by decide)

/-! ## C9: collection statistics -/

theorem bumpCount_keys (l : List (MVal × Nat)) (k : MVal) :
    (bumpCount l k).map Prod.fst
      = if k ∈ l.map Prod.fst then l.map Prod.fst else l.map Prod.fst ++ [k] := by
  unfold bumpCount
  by_cases h : l.any (fun p => p.1 = k)
  · rw [if_pos h, if_pos]
    · rw [List.map_map]
      apply List.map_congr_left
      intro p hp
      by_cases hp1 : p.1 = k <;> simp [hp1]
    · rcases List.any_eq_true.mp h with ⟨p, hp, hpk⟩
      rw [decide_eq_true_eq] at hpk
      exact List.mem_map.mpr ⟨p, hp, hpk⟩
  · rw [if_neg h, if_neg]
    · simp
    · intro hk
      rcases List.mem_map.mp hk with ⟨p, hp, hpk⟩
      exact h (List.any_eq_true.mpr ⟨p, hp, by rw [decide_eq_true_eq]; exact hpk⟩)

theorem foldl_bumpCount_keys (ks : List MVal) (acc : List (MVal × Nat)) :
    (ks.foldl (fun a k => bumpCount a k) acc).map Prod.fst
      = ks.foldl (fun seen k => if k ∈ seen then seen else seen ++ [k])
          (acc.map Prod.fst) := by
  induction ks generalizing acc with
  | nil => rfl
  | cons k ks ih =>
    simp only [List.foldl_cons]
    rw [ih, bumpCount_keys]

theorem stats_fold_length (sample : List ChromaRecord) :
    (sample.foldl (fun acc r => bumpCount acc (docKey r)) []).length
      = countDistinct (sample.map docKey) := by
  have h1 : sample.foldl (fun acc r => bumpCount acc (docKey r)) []
      = (sample.map docKey).foldl (fun a k => bumpCount a k) [] :=
    (List.foldl_map docKey (fun a k => bumpCount a k) sample []).symm
  rw [h1, ← List.length_map _ Prod.fst, foldl_bumpCount_keys]
  rfl

set_option maxRecDepth 100000 in
/-- C9 fails as stated: with 101 stored records carrying 101 distinct
document ids, `get_collection_stats` reports `total = 101` (live) but
`unique_documents = 100`, because the distribution is computed from a
100-record sample, not from the live collection contents. -/
theorem c9_counterexample :
    statsOf state101 "u" = some (101, 100) ∧
    countDistinct ((colRecords state101 "user_u").map docKey) = 101 ∧
    (100 : Nat) ≠ 101 := by
  refine ⟨rfl, rfl, by decide⟩

/-- C9 (amended): `get_collection_stats` reports a live total, but
`unique_documents` is the number of distinct document ids among only the
first 100 records (the `limit=100` sample); the two notions agree
exactly when the collection holds at most 100 records. -/
theorem c9_get_collection_stats_sampled (s : VSState) (user_id : String)
    (s1 : VSState) (col : ChromaCollection)
    (hget : getCollection s user_id = (s1, some col)) :
    ∃ st, (get_collection_stats s user_id).2 = Except.ok st ∧
      st.total_embeddings = col.records.length ∧
      st.unique_documents = countDistinct ((col.records.take 100).map docKey) ∧
      (col.records.length ≤ 100 →
        st.unique_documents = countDistinct (col.records.map docKey)) := by
  unfold get_collection_stats
  rw [hget]
  dsimp only
  refine ⟨_, rfl, rfl, stats_fold_length _, ?_⟩
  intro hle
  rw [stats_fold_length _, List.take_of_length_le hle]

/-- Witness for C9 (amended), on the one-record store. -/
theorem c9_get_collection_stats_sampled_witness :
    ∃ st, (get_collection_stats stateDoc "u").2 = Except.ok st ∧
      st.total_embeddings = (colRecords stateDoc "user_u").length ∧
      st.unique_documents
        = countDistinct (((colRecords stateDoc "user_u").take 100).map docKey) ∧
      ((colRecords stateDoc "user_u").length ≤ 100 →
        st.unique_documents = countDistinct ((colRecords stateDoc "user_u").map docKey)) :=
  c9_get_collection_stats_sampled stateDoc "u" stateDoc
    ⟨"user_u", "u", some 1,
     [⟨0, [1], "t", [("document_id", MVal.str "d"), ("user_id", MVal.str "u"),
                     ("text_length", MVal.nat 1)]⟩]⟩ rfl

/-! ## C2 and C3: search bounds and ordering -/

theorem chromaQuery_ok (col : ChromaCollection) (q : Vec) (n : Nat)
    (ranked : List Ranked) (h : chromaQuery col q n = Except.ok ranked) :
    ranked.length ≤ n ∧
    (∀ x ∈ ranked, x.2.1 ∈ col.records ∧ x.2.2 = sqDist x.2.1.embedding q) ∧
    ranked.Pairwise (fun a b => distLe a b = true) ∧
    (ranked.map (fun x => x.1)).Nodup := by
  unfold chromaQuery at h
  cases hd : col.dim <;> rw [hd] at h <;> dsimp only at h
  · simp only [Except.ok.injEq] at h
    subst h
    simp
  · rename_i d
    by_cases hql : q.length = d
    · rw [if_pos hql] at h
      simp only [Except.ok.injEq] at h
      subst h
      exact ⟨topByDist_length _ _ _,
             fun x hx => topByDist_mem _ _ _ x hx,
             topByDist_pairwise _ _ _,
             topByDist_idx_nodup _ _ _⟩
    · rw [if_neg hql] at h
      exact absurd h (by simp)

/-- C2: a successful `search_similar` returns at most `limit` results,
each with `similarity >= threshold`; and when no stored vector clears
the threshold the result is the empty list — not an error. -/
theorem c2_search_similar_bounds (s : VSState) (query_embedding : Vec)
    (user_id : String) (limit : Nat) (threshold : ℚ) (s1 : VSState)
    (rs : List SearchResult)
    (h : search_similar s query_embedding user_id limit threshold
      = (s1, Except.ok rs)) :
    rs.length ≤ limit ∧
    (∀ r ∈ rs, r.similarity ≥ threshold) ∧
    (∀ col, (getCollection s user_id).2 = some col →
      (∀ rec ∈ col.records,
        1 - sqDist rec.embedding query_embedding < threshold) →
      rs = []) := by
  unfold search_similar at h
  rcases hget : getCollection s user_id with ⟨sA, oc⟩
  rw [hget] at h
  cases oc with
  | none => exact absurd (congrArg Prod.snd h) (by simp)
  | some col =>
    dsimp only at h
    cases hq : chromaQuery col query_embedding limit with
    | error e =>
      rw [hq] at h
      exact absurd (congrArg Prod.snd h) (by simp)
    | ok ranked =>
      rw [hq] at h
      rw [Prod.mk.injEq] at h
      obtain ⟨hs1, hrs⟩ := h
      simp only [Except.ok.injEq] at hrs
      subst hrs
      obtain ⟨hlen, hmem, -, -⟩ := chromaQuery_ok col query_embedding limit ranked hq
      refine ⟨?_, ?_, ?_⟩
      · unfold formatResults
        rw [List.length_map]
        exact le_trans (List.length_filter_le _ _) hlen
      · intro r hr
        unfold formatResults at hr
        rcases List.mem_map.mp hr with ⟨x, hxf, rfl⟩
        rcases List.mem_filter.mp hxf with ⟨-, hxp⟩
        rw [decide_eq_true_eq] at hxp
        exact hxp
      · intro col' hcol' hthresh
        simp only [Option.some.injEq] at hcol'
        subst hcol'
        unfold formatResults
        rw [List.filter_eq_nil_iff.mpr, List.map_nil]
        intro x hx
        obtain ⟨hxm, hxd⟩ := hmem x hx
        rw [decide_eq_true_eq, hxd]
        exact not_le.mpr (hthresh x.2.1 hxm)

/-- C3: a successful `search_similar` result list is ordered by strictly
descending similarity except for ties, and a tie in similarity is
ordered by insertion index (the earlier-inserted record first). -/
theorem c3_search_similar_ordered (s : VSState) (query_embedding : Vec)
    (user_id : String) (limit : Nat) (threshold : ℚ) (s1 : VSState)
    (rs : List SearchResult)
    (h : search_similar s query_embedding user_id limit threshold
      = (s1, Except.ok rs)) :
    rs.Pairwise (fun a b => b.similarity < a.similarity ∨
      (a.similarity = b.similarity ∧ a.idx < b.idx)) := by
  unfold search_similar at h
  rcases hget : getCollection s user_id with ⟨sA, oc⟩
  rw [hget] at h
  cases oc with
  | none => exact absurd (congrArg Prod.snd h) (by simp)
  | some col =>
    dsimp only at h
    cases hq : chromaQuery col query_embedding limit with
    | error e =>
      rw [hq] at h
      exact absurd (congrArg Prod.snd h) (by simp)
    | ok ranked =>
      rw [hq] at h
      rw [Prod.mk.injEq] at h
      obtain ⟨hs1, hrs⟩ := h
      simp only [Except.ok.injEq] at hrs
      subst hrs
      obtain ⟨-, -, hpair, hnd⟩ := chromaQuery_ok col query_embedding limit ranked hq
      have hne : ranked.Pairwise (fun a b => a.1 ≠ b.1) :=
        List.pairwise_map.mp hnd
      have hcomb := (hpair.and hne).filter (fun x => decide (1 - x.2.2 ≥ threshold))
      unfold formatResults
      rw [List.pairwise_map]
      refine hcomb.imp ?_
      intro a b hab
      obtain ⟨hle, hane⟩ := hab
      rw [distLe, decide_eq_true_eq] at hle
      rcases hle with hlt | ⟨heq, hle'⟩
      · exact Or.inl (by dsimp only; exact sub_lt_sub_left hlt 1)
      · refine Or.inr ⟨by dsimp only; rw [heq], ?_⟩
        exact lt_of_le_of_ne hle' hane

/-- Witness for C2: two stored vectors, one within the threshold. -/
theorem c2_search_similar_bounds_witness :
    ([(⟨0, 0, "a", [], 1, 0⟩ : SearchResult)]).length ≤ 10 ∧
    (∀ r ∈ [(⟨0, 0, "a", [], 1, 0⟩ : SearchResult)], r.similarity ≥ (1/2 : ℚ)) ∧
    (∀ col, (getCollection stateSearch "u").2 = some col →
      (∀ rec ∈ col.records, 1 - sqDist rec.embedding [0] < (1/2 : ℚ)) →
      [(⟨0, 0, "a", [], 1, 0⟩ : SearchResult)] = []) :=
  c2_search_similar_bounds stateSearch [0] "u" 10 (1/2) stateSearch
    [⟨0, 0, "a", [], 1, 0⟩]
    (by norm_num [search_similar, getCollection, findCol, stateSearch, chromaQuery,
      topByDist, sortLe, insertLe, distLe, sqDist, formatResults, List.enum,
      List.enumFrom, show ("user_" ++ "u" : String) = "user_u" from by decide])

/-- Witness for C3: two stored vectors at the same distance from the
query; the earlier-inserted one ranks first. -/
theorem c3_search_similar_ordered_witness :
    ([⟨0, 0, "a", [], 1, 0⟩, ⟨1, 1, "b", [], 1, 0⟩] : List SearchResult).Pairwise
      (fun a b => b.similarity < a.similarity ∨
        (a.similarity = b.similarity ∧ a.idx < b.idx)) :=
  c3_search_similar_ordered stateTie [0] "u" 10 0 stateTie
    [⟨0, 0, "a", [], 1, 0⟩, ⟨1, 1, "b", [], 1, 0⟩]
    (by norm_num [search_similar, getCollection, findCol, stateTie, chromaQuery,
      topByDist, sortLe, insertLe, distLe, sqDist, formatResults, List.enum,
      List.enumFrom, show ("user_" ++ "u" : String) = "user_u" from by decide])

/-! ## C8: user listing and pagination -/

theorem createdDesc_total (a b : MongoRec) (h : createdDesc a b = false) :
    createdDesc b a = true := by
  simp only [createdDesc, decide_eq_false_iff_not, decide_eq_true_eq, not_le] at h ⊢
  omega

theorem createdDesc_trans (a b c : MongoRec) (h1 : createdDesc a b = true)
    (h2 : createdDesc b c = true) : createdDesc a c = true := by
  simp only [createdDesc, decide_eq_true_eq] at h1 h2 ⊢
  omega

/-- C8 fails as stated: `get_by_user` orders by `created_at`, not
`updated_at`.  With a record created later but updated earlier than its
neighbour, the returned sequence is not `updated_at`-descending. -/
theorem c8_counterexample :
    (get_by_user dbX "u" 1 10).1
      = [⟨0, "d", "u", "", [], "m", [], 2, 1⟩, ⟨1, "d", "u", "", [], "m", [], 1, 2⟩] ∧
    ¬ (get_by_user dbX "u" 1 10).1.Pairwise
        (fun a b => b.updated_at ≤ a.updated_at) := by
  exact ⟨rfl, by decide⟩

/-- C8 (amended): for any page `>= 1`, `get_by_user` returns the total
count of the user's records, the page's records ordered by `created_at`
descending (all belonging to the user), with 1-indexed pages; a page
past the last yields the empty sequence together with the true total,
not an error. -/
theorem c8_get_by_user_pagination (db : List MongoRec) (user_id : String)
    (page : Int) (limit : Nat) (hpage : 1 ≤ page) :
    (get_by_user db user_id page limit).2
      = (db.filter (fun r => r.user_id = user_id)).length ∧
    (get_by_user db user_id page limit).1.Pairwise
      (fun a b => b.created_at ≤ a.created_at) ∧
    (∀ r ∈ (get_by_user db user_id page limit).1, r.user_id = user_id) ∧
    ((db.filter (fun r => r.user_id = user_id)).length
        ≤ ((page - 1) * limit).toNat →
      (get_by_user db user_id page limit).1 = []) := by
  have hskip : ¬ ((page - 1) * (limit : Int) < 0) := by
    have h1 : (0 : Int) ≤ page - 1 := by omega
    have h2 : (0 : Int) ≤ (limit : Int) := Int.natCast_nonneg limit
    exact not_lt.mpr (mul_nonneg h1 h2)
  unfold get_by_user
  rw [if_neg hskip]
  dsimp only
  refine ⟨rfl, ?_, ?_, ?_⟩
  · have hs := pairwise_sortLe createdDesc createdDesc_total createdDesc_trans
      (db.filter (fun r => r.user_id = user_id))
    have hps := List.Pairwise.sublist
      ((List.take_sublist limit _).trans
        (List.drop_sublist (((page - 1) * (limit : Int)).toNat) _)) hs
    refine hps.imp ?_
    intro a b hab
    simpa [createdDesc] using hab
  · intro r hr
    have hr1 := ((List.take_sublist limit _).trans
      (List.drop_sublist (((page - 1) * (limit : Int)).toNat) _)).subset hr
    rw [mem_sortLe] at hr1
    rcases List.mem_filter.mp hr1 with ⟨-, hp⟩
    rw [decide_eq_true_eq] at hp
    exact hp
  · intro hle
    rw [List.drop_eq_nil_of_le, List.take_nil]
    rw [length_sortLe]
    exact hle

/-- Witness for C8 (amended): 15 records, `page_size = 10`; page 2 has 5
records with total 15, page 3 has none with total 15. -/
theorem c8_get_by_user_pagination_witness :
    ((get_by_user db15 "u" 2 10).1.length = 5 ∧ (get_by_user db15 "u" 2 10).2 = 15) ∧
    ((get_by_user db15 "u" 3 10).1 = [] ∧ (get_by_user db15 "u" 3 10).2 = 15) ∧
    ((get_by_user db15 "u" 2 10).2 = (db15.filter (fun r => r.user_id = "u")).length ∧
     (get_by_user db15 "u" 2 10).1.Pairwise (fun a b => b.created_at ≤ a.created_at) ∧
     (∀ r ∈ (get_by_user db15 "u" 2 10).1, r.user_id = "u") ∧
     ((db15.filter (fun r => r.user_id = "u")).length ≤ ((2 - 1) * 10 : Int).toNat →
       (get_by_user db15 "u" 2 10).1 = [])) :=
  ⟨by decide, by decide, c8_get_by_user_pagination db15 "u" 2 10 (by decide)⟩
